import Mathlib

/-!
Shallow embedding of the cgx_scheduler cooperative task scheduler
(src/inner.hpp and src/scheduler.hpp, namespace cgx::sch).

Modelling conventions:
- `time_t` (uint64_t) tick values are modelled as `Nat`, `duration_t`
  (int64_t) as `Int`; tick counts are assumed to stay far below 2^63, so
  no wraparound arithmetic is modelled (no claim here depends on it).
- The process-wide `inner::timer_t` singleton is modelled by passing the
  value its `now()` callback would return as an explicit `now : Nat`
  argument to every operation that reads the clock; all clock reads
  inside one operation see the same instant.
- `std::function<bool()>` task callbacks are modelled by the `Bool` they
  return (`m_callback : Bool`); callback side effects are outside the
  model.  A default-constructed task's callback is a nullptr that is
  never invoked while the task is `invalid`; the model uses `false`.
- Mutation is modelled by explicit state passing: a member function that
  mutates `*this` becomes a Lean function returning the updated record
  (paired with the C++ return value when there is one).
-/

/-- Value of std::numeric_limits of uint64_t max, used by
`min_max_mean_t::reset` (T is instantiated at `inner::timer_t::time_t`,
i.e. uint64_t, whose `lowest()` is 0). -/
def UINT64_MAX : Nat := 2 ^ 64 - 1

/-- Modulus of uint64_t arithmetic: additions into the mean accumulator
of `min_max_mean_t::add` wrap modulo this value. -/
def UINT64_MOD : Nat := 2 ^ 64

/-- `inner::min_max_mean_t<T, N>` (src/inner.hpp, lines 49-99), at
T = uint64_t.  The ring size N is the length of `m_values`. -/
structure min_max_mean_t where
  m_min : Nat := UINT64_MAX
  m_max : Nat := 0
  m_mean : Nat := 0
  m_is_mean_valid : Bool := false
  m_index : Nat := 0
  m_values : List Nat := List.replicate 32 0
  deriving DecidableEq, Repr

/-- Exact (unbounded) sum of the ring contents, used to relate the
wrapped accumulation below to ordinary arithmetic. -/
def sumList (l : List Nat) : Nat := l.foldl (fun a b => a + b) 0

/-- The `for` accumulation `m_mean += v` of `min_max_mean_t::add`: each
uint64_t addition wraps modulo 2^64. -/
def sumMod (l : List Nat) : Nat :=
  l.foldl (fun a b => (a + b) % UINT64_MOD) 0

/-- `min_max_mean_t::add` (src/inner.hpp, lines 52-66): seed the ring on
the first sample, fold min/max, overwrite the oldest slot, advance the
index, and recompute the mean over the full ring — the accumulation is
uint64_t arithmetic (wrapping modulo 2^64) followed by integer
division by N. -/
def min_max_mean_t.add (s : min_max_mean_t) (value : Nat) : min_max_mean_t :=
  let values0 := if s.m_is_mean_valid then s.m_values
                 else List.replicate s.m_values.length value
  let n := values0.length
  let values1 := values0.set s.m_index value
  { m_min := Nat.min s.m_min value
    m_max := Nat.max s.m_max value
    m_mean := sumMod values1 / n
    m_is_mean_valid := true
    m_index := (s.m_index + 1) % n
    m_values := values1 }

/-- `min_max_mean_t::reset` (src/inner.hpp, lines 83-90). -/
def min_max_mean_t.reset (s : min_max_mean_t) : min_max_mean_t :=
  { m_min := UINT64_MAX
    m_max := 0
    m_mean := 0
    m_is_mean_valid := false
    m_index := 0
    m_values := List.replicate s.m_values.length 0 }

/-- `inner::timer_t::elapsed` (src/inner.hpp, lines 25-27): signed
difference of tick counts. -/
def elapsed (now start : Nat) : Int := (now : Int) - (start : Int)

/-- `inner::stop_watch_t` (src/inner.hpp, lines 101-125). -/
structure stop_watch_t where
  m_start : Nat := 0
  m_duration : min_max_mean_t := {}
  deriving DecidableEq, Repr

/-- `stop_watch_t::start`. -/
def stop_watch_t.start (s : stop_watch_t) (now : Nat) : stop_watch_t :=
  { s with m_start := now }

/-- `stop_watch_t::stop`: feeds elapsed-since-start (converted back to
uint64_t) into the owned rolling statistic. -/
def stop_watch_t.stop (s : stop_watch_t) (now : Nat) : stop_watch_t :=
  { s with m_duration := s.m_duration.add ((elapsed now s.m_start).toNat) }

/-- `stop_watch_t::reset`: clears only the statistic. -/
def stop_watch_t.reset (s : stop_watch_t) : stop_watch_t :=
  { s with m_duration := s.m_duration.reset }

/-- `task_t::status_t` (src/scheduler.hpp, lines 71-77). -/
inductive status_t where
  | invalid
  | running
  | stopped
  | paused
  | delayed
  deriving DecidableEq, Repr

/-- `cgx::sch::task_t` (src/scheduler.hpp, lines 66-219).  Field
defaults are the in-class member initializers of a default-constructed
task; `m_period_tick` has no initializer in the source (indeterminate),
the model picks 0 — its value is irrelevant while the task is
`invalid`. -/
structure task_t where
  m_name : List Nat := List.replicate 9 0
  m_callback : Bool := false
  m_period_tick : Int := 0
  m_ticks_left : Int := 0
  m_last_run_tick : Nat := 0
  m_prev : Nat := 0
  m_run_time : stop_watch_t := {}
  m_exec_time : stop_watch_t := {}
  m_status : status_t := status_t.invalid
  deriving DecidableEq, Repr

/-- `task_t::_ticks_left` (src/scheduler.hpp, lines 203-218).  Returns
the computed time-left together with the updated `m_prev` phase sample
(the source mutates the `mutable` member in place). -/
def task_t._ticks_left (s : task_t) (now : Nat) : Int × Nat :=
  if s.m_period_tick < 0 then
    if s.m_status = status_t.delayed then
      (-(elapsed now s.m_last_run_tick), s.m_prev)
    else
      let current := now % (-s.m_period_tick).toNat
      if current < s.m_prev then
        (-(elapsed now s.m_last_run_tick), current)
      else
        ((-s.m_period_tick) - (current : Int), current)
  else
    (s.m_period_tick - elapsed now s.m_last_run_tick, s.m_prev)

/-- `task_t::is_ready` (src/scheduler.hpp, lines 79-91).  Returns the
readiness flag and the task with its mutable `m_ticks_left` and `m_prev`
members updated. -/
def task_t.is_ready (s : task_t) (now : Nat) : Bool × task_t :=
  if s.m_status = status_t.invalid then (false, s)
  else if s.m_status = status_t.stopped then (false, s)
  else
    let r := s._ticks_left now
    (decide (r.1 ≤ 0), { s with m_ticks_left := r.1, m_prev := r.2 })

/-- `task_t::ticks_left` (src/scheduler.hpp, lines 136-144). -/
def task_t.ticks_left (s : task_t) : Int :=
  if s.m_status ≠ status_t.paused then 0
  else if s.m_period_tick = 0 then 0
  else s.m_ticks_left

/-- `task_t::status` (src/scheduler.hpp, lines 146-151): synthesizes
`delayed` on read when the public time-left is negative. -/
def task_t.status (s : task_t) : status_t :=
  if s.ticks_left < 0 then status_t.delayed else s.m_status

/-- `task_t::run` (src/scheduler.hpp, lines 93-116), in source order:
early return on invalid/stopped; `m_exec_time.stop(); m_exec_time.start();`
then `m_status = running`; then the `m_last_run_tick` update (note that
`ticks_left()` is evaluated after the status write); the scoped
`m_run_time.measure()` stopwatch around the callback; finally the status
set from the callback's boolean result. -/
def task_t.run (s : task_t) (now : Nat) : task_t :=
  if s.m_status = status_t.invalid then s
  else if s.m_status = status_t.stopped then s
  else
    let s1 := { s with m_exec_time := (s.m_exec_time.stop now).start now }
    let s2 := { s1 with m_status := status_t.running }
    let s3 :=
      if 0 ≤ s2.m_period_tick then { s2 with m_last_run_tick := now }
      else { s2 with m_last_run_tick := ((now : Int) - s2.ticks_left).toNat }
    let s4 := { s3 with m_run_time := s3.m_run_time.start now }
    let s5 :=
      if s4.m_callback then { s4 with m_status := status_t.paused }
      else { s4 with m_status := status_t.invalid }
    { s5 with m_run_time := s5.m_run_time.stop now }

/-- `task_t::invalidate` (src/scheduler.hpp, line 118). -/
def task_t.invalidate (s : task_t) : task_t :=
  { s with m_status := status_t.invalid }

/-- `task_t::stop` (src/scheduler.hpp, line 119). -/
def task_t.stop (s : task_t) : task_t :=
  { s with m_status := status_t.stopped }

/-- `task_t::start` (src/scheduler.hpp, lines 120-125). -/
def task_t.start (s : task_t) (now : Nat) : task_t :=
  { s with m_status := status_t.paused
           m_run_time := s.m_run_time.reset
           m_exec_time := (s.m_exec_time.reset).start now }

/-- `task_t::reset_run_time` (src/scheduler.hpp, line 135). -/
def task_t.reset_run_time (s : task_t) : task_t :=
  { s with m_run_time := s.m_run_time.reset }

/-- The stored name produced by the `task_t` constructor's `memcpy` of
at most 8 characters of the given C string into a zero-initialized
9-byte array (src/scheduler.hpp, lines 159-160).  `name` is the list of
characters of the argument before its null terminator. -/
def mkName (name : List Nat) : List Nat :=
  name.take 8 ++ List.replicate (9 - (name.take 8).length) 0

/-- The `task_t(name, period, callback)` constructor
(src/scheduler.hpp, lines 154-161).  Note the member-initializer list
sets `m_status(status_t::running)`. -/
def task_t.mk' (name : List Nat) (period : Int) (callback : Bool) : task_t :=
  { m_name := mkName name
    m_callback := callback
    m_period_tick := period
    m_status := status_t.running }

/-- `task_t::operator=` (src/scheduler.hpp, lines 163-172): copies
name, callback, period, last-run, status and the two stopwatches, but
leaves the destination's `m_ticks_left` and `m_prev` untouched. -/
def task_t.assign (t other : task_t) : task_t :=
  { t with m_name := other.m_name
           m_callback := other.m_callback
           m_period_tick := other.m_period_tick
           m_last_run_tick := other.m_last_run_tick
           m_status := other.m_status
           m_run_time := other.m_run_time
           m_exec_time := other.m_exec_time }

/-- Character of a C string at index `i`: a stored name array or a
query string argument, both read as 0 (the null terminator) past the
end of the listed characters. -/
def charAt (l : List Nat) (i : Nat) : Nat := l.getD i 0

/-- Equality part of `std::strncmp(a, b, n)` starting at index `i`:
stop unequal at the first differing character, stop equal at a shared
null terminator or after `n` characters. -/
def strncmpEqAux (a b : Nat → Nat) : Nat → Nat → Bool
  | 0, _ => true
  | fuel + 1, i =>
    if a i ≠ b i then false
    else if a i = 0 then true
    else strncmpEqAux a b fuel (i + 1)

/-- `std::strncmp(a.data(), b, 8) == 0` as used by the name-addressed
lane operations (src/scheduler.hpp, lines 302, 315, 328). -/
def strncmpEq8 (a b : List Nat) : Bool :=
  strncmpEqAux (charAt a) (charAt b) 8 0

/-- The slot filter of `thread<N>::pkill`, `start`, `stop`:
`task && strncmp(task.name().data(), name, 8) == 0` (the `operator bool`
of `task_t` is `m_status != invalid`). -/
def taskMatches (t : task_t) (q : List Nat) : Bool :=
  decide (t.m_status ≠ status_t.invalid) && strncmpEq8 t.m_name q

/-- `cgx::sch::thread<N>` (src/scheduler.hpp, lines 251-382): the
fixed-capacity execution lane.  The capacity N is the length of
`m_tasks_list`. -/
structure thread where
  m_tasks_list : List task_t := []
  m_watch : stop_watch_t := {}
  m_index : Nat := 0
  deriving DecidableEq, Repr

/-- `thread<N>::size` (src/scheduler.hpp, lines 274-284): the number of
non-invalid (truthy) slots. -/
def thread.size (s : thread) : Nat :=
  s.m_tasks_list.countP (fun t => decide (t.m_status ≠ status_t.invalid))

/-- The `while (!m_tasks_list[m_index])` scan of `thread<N>::run`
(src/scheduler.hpp, lines 262-264), given fuel: the source loop
terminates exactly when some slot is populated, which `run` guarantees
by returning early on an empty lane; with `fuel = N` and a start index
below N the scan visits every slot once. -/
def findValid (tasks : List task_t) : Nat → Nat → Nat
  | 0, idx => idx
  | fuel + 1, idx =>
    if (tasks.getD idx {}).m_status ≠ status_t.invalid then idx
    else findValid tasks fuel ((idx + 1) % tasks.length)

/-- `thread<N>::run` (src/scheduler.hpp, lines 254-272): no-op on an
empty lane; otherwise wrap the call in the lane stopwatch, advance the
cursor past invalid slots, execute the slot under the cursor only if it
is ready, then advance the cursor by one.  The first component reports
which slot executed (`none` when no task ran), the model's observation
of the callback invocation. -/
def thread.run (s : thread) (now : Nat) : Option Nat × thread :=
  if s.size = 0 then (none, s)
  else
    let len := s.m_tasks_list.length
    let w := s.m_watch.start now
    let i := findValid s.m_tasks_list len s.m_index
    let p := (s.m_tasks_list.getD i {}).is_ready now
    let t1 := if p.1 then p.2.run now else p.2
    ((if p.1 then some i else none),
     { m_tasks_list := s.m_tasks_list.set i t1
       m_watch := w.stop now
       m_index := (i + 1) % len })

/-- The range-for of `thread<N>::add` (src/scheduler.hpp, lines
286-297): assign into the first falsy (invalid) slot and stop, `none`
when every slot is populated. -/
def addAux (tnew : task_t) : List task_t → Option (List task_t)
  | [] => none
  | t :: ts =>
    if t.m_status = status_t.invalid then some (t.assign tnew :: ts)
    else (addAux tnew ts).map (fun l => t :: l)

/-- `thread<N>::add` (src/scheduler.hpp, lines 286-297). -/
def thread.add (s : thread) (tnew : task_t) : Bool × thread :=
  match addAux tnew s.m_tasks_list with
  | some l => (true, { s with m_tasks_list := l })
  | none => (false, s)

/-- The shared range-for shape of `thread<N>::pkill`, `start`, `stop`
(src/scheduler.hpp, lines 299-336): apply `f` to the first populated
slot whose stored name strncmp-matches the query and stop, `none` when
no slot matches. -/
def ctrlAux (f : task_t → task_t) (q : List Nat) : List task_t → Option (List task_t)
  | [] => none
  | t :: ts =>
    if taskMatches t q then some (f t :: ts)
    else (ctrlAux f q ts).map (fun l => t :: l)

/-- `thread<N>::pkill` (src/scheduler.hpp, lines 299-310). -/
def thread.pkill (s : thread) (q : List Nat) : Bool × thread :=
  match ctrlAux task_t.invalidate q s.m_tasks_list with
  | some l => (true, { s with m_tasks_list := l })
  | none => (false, s)

/-- `thread<N>::start` (src/scheduler.hpp, lines 312-323). -/
def thread.start (s : thread) (now : Nat) (q : List Nat) : Bool × thread :=
  match ctrlAux (fun t => t.start now) q s.m_tasks_list with
  | some l => (true, { s with m_tasks_list := l })
  | none => (false, s)

/-- `thread<N>::stop` (src/scheduler.hpp, lines 325-336). -/
def thread.stop (s : thread) (q : List Nat) : Bool × thread :=
  match ctrlAux task_t.stop q s.m_tasks_list with
  | some l => (true, { s with m_tasks_list := l })
  | none => (false, s)

/-- `thread<N>::reset_stats` (src/scheduler.hpp, lines 338-345). -/
def thread.reset_stats (s : thread) : thread :=
  { s with m_tasks_list := s.m_tasks_list.map task_t.reset_run_time
           m_watch := s.m_watch.reset }

/-- Iterated `thread::run` at a fixed clock reading, collecting the
per-call executed-slot observations. -/
def thread.iterateRun (now : Nat) : Nat → thread → List (Option Nat) × thread
  | 0, s => ([], s)
  | k + 1, s =>
    let r := s.run now
    let rest := thread.iterateRun now k r.2
    (r.1 :: rest.1, rest.2)

/-- `cgx::sch::scheduler_t` (src/scheduler.hpp, lines 384-458): a
registry of 8 observer (non-owning, possibly null) lane pointers.  A
`none` slot models a null pointer.  Lanes are modelled by value: the
claims considered here involve no aliasing between registry slots. -/
structure scheduler_t where
  m_threads : List (Option thread) := List.replicate 8 none
  deriving DecidableEq, Repr

/-- The freshly constructed registry
(`std::array<observer_ptr<thread_t>, 8> m_threads{nullptr}`,
src/scheduler.hpp, line 457): all 8 slots null. -/
def scheduler_t.init : scheduler_t := {}

/-- `scheduler_t::run` (src/scheduler.hpp, lines 392-397): out-of-range
index returns early; otherwise `m_threads[thread]->run()` is invoked
with no null check — dereferencing a null registry slot is undefined
behaviour, modelled as `none`. -/
def scheduler_t.run (s : scheduler_t) (now : Nat) (i : Nat) : Option scheduler_t :=
  if s.m_threads.length ≤ i then some s
  else
    match s.m_threads.getD i none with
    | none => none
    | some th =>
      some { s with m_threads := s.m_threads.set i (some (th.run now).2) }

/-- `scheduler_t::add(task, thread)` (src/scheduler.hpp, lines
408-413): out-of-range index returns false; otherwise
`m_threads[thread]->add(task)` with no null check — null dereference
modelled as `none`. -/
def scheduler_t.addTask (s : scheduler_t) (t : task_t) (i : Nat) :
    Option (Bool × scheduler_t) :=
  if s.m_threads.length ≤ i then some (false, s)
  else
    match s.m_threads.getD i none with
    | none => none
    | some th =>
      let r := th.add t
      some (r.1, { s with m_threads := s.m_threads.set i (some r.2) })

/-- The shared range-for shape of `scheduler_t::pkill`, `start`, `stop`
(src/scheduler.hpp, lines 415-440): `if (t && t->op(name)) return true;`
— null registry slots are skipped, and the scan stops at the first lane
reporting a match. -/
def broadcastFind (g : thread → Bool × thread) :
    List (Option thread) → Bool × List (Option thread)
  | [] => (false, [])
  | none :: ts =>
    let r := broadcastFind g ts
    (r.1, none :: r.2)
  | some th :: ts =>
    let p := g th
    if p.1 then (true, some p.2 :: ts)
    else
      let r := broadcastFind g ts
      (r.1, some p.2 :: r.2)

/-- `scheduler_t::pkill` (src/scheduler.hpp, lines 415-422). -/
def scheduler_t.pkill (s : scheduler_t) (q : List Nat) : Bool × scheduler_t :=
  let r := broadcastFind (fun th => th.pkill q) s.m_threads
  (r.1, { m_threads := r.2 })

/-- `scheduler_t::start` (src/scheduler.hpp, lines 424-431). -/
def scheduler_t.start (s : scheduler_t) (now : Nat) (q : List Nat) :
    Bool × scheduler_t :=
  let r := broadcastFind (fun th => th.start now q) s.m_threads
  (r.1, { m_threads := r.2 })

/-- `scheduler_t::stop` (src/scheduler.hpp, lines 433-440). -/
def scheduler_t.stop (s : scheduler_t) (q : List Nat) : Bool × scheduler_t :=
  let r := broadcastFind (fun th => th.stop q) s.m_threads
  (r.1, { m_threads := r.2 })

/-- `scheduler_t::reset_stats` (src/scheduler.hpp, lines 444-450):
broadcasts to every registered lane, skipping null slots. -/
def scheduler_t.reset_stats (s : scheduler_t) : scheduler_t :=
  { m_threads := s.m_threads.map (fun o => o.map thread.reset_stats) }

/-- The cursor position `thread<N>::run` executes after its empty-slot
scan. -/
def scanIdx (s : thread) : Nat :=
  findValid s.m_tasks_list s.m_tasks_list.length s.m_index

/-- A task that is ready at clock reading `now` and stays ready after
every successful run at that reading: populated, not stopped, period 0
(time-left `0 - elapsed(last_run) ≤ 0`), a last-run baseline not in the
future, and a callback that keeps the task alive. -/
def AlwaysReady (now : Nat) (t : task_t) : Prop :=
  t.m_status ≠ status_t.invalid ∧ t.m_status ≠ status_t.stopped ∧
  t.m_period_tick = 0 ∧ t.m_last_run_tick ≤ now ∧ t.m_callback = true

instance (now : Nat) (t : task_t) : Decidable (AlwaysReady now t) := by
  unfold AlwaysReady; infer_instance

/-- Task states reachable through construction and the public task
operations (the lane and scheduler layers only ever apply these). -/
inductive ReachableTask : task_t → Prop where
  | construct (name : List Nat) (period : Int) (callback : Bool) :
      ReachableTask (task_t.mk' name period callback)
  | defaultSlot (p : Int) :
      ReachableTask { m_period_tick := p }
  | ready (n : Nat) {s : task_t} :
      ReachableTask s → ReachableTask (s.is_ready n).2
  | run (n : Nat) {s : task_t} :
      ReachableTask s → ReachableTask (s.run n)
  | start (n : Nat) {s : task_t} :
      ReachableTask s → ReachableTask (s.start n)
  | stop {s : task_t} : ReachableTask s → ReachableTask s.stop
  | invalidate {s : task_t} : ReachableTask s → ReachableTask s.invalidate
  | assign {s t : task_t} :
      ReachableTask s → ReachableTask t → ReachableTask (s.assign t)

/-- Concrete failing input for the negative-period re-arming claim: a
paused task of period -10 whose stored phase sample is 7, polled and run
at tick 12 (one boundary crossed since the last poll). -/
def taskC1 : task_t :=
  { m_name := mkName [116, 49]
    m_callback := true
    m_period_tick := -10
    m_prev := 7
    m_status := status_t.paused }

/-- Concrete negative-period task used by the C2 witness. -/
def taskC2w : task_t :=
  { m_name := mkName [116, 50]
    m_callback := true
    m_period_tick := -10
    m_prev := 7
    m_status := status_t.paused }

/-- Concrete stopped task used by the C4 witness. -/
def taskC4stopped : task_t :=
  { m_callback := true
    m_period_tick := 10
    m_status := status_t.stopped }

/-- Concrete paused task used by the C4 witness. -/
def taskC4paused : task_t :=
  { m_callback := true
    m_period_tick := 10
    m_status := status_t.paused }

/-- An immediately ready task (period 0) used by the C5 witness. -/
def taskC5ar : task_t :=
  { m_callback := true
    m_period_tick := 0
    m_status := status_t.paused }

/-- A fully populated two-slot lane of immediately ready tasks, used by
the C5 witness. -/
def laneC5 : thread := { m_tasks_list := [taskC5ar, taskC5ar] }

/-- Concrete ready task used by the C6 witness. -/
def taskC6 : task_t :=
  { m_callback := true
    m_period_tick := 3
    m_status := status_t.paused }

/-- Concrete task value inserted by the C6 witness. -/
def taskC6new : task_t := task_t.mk' [110, 50] 7 true

/-- A one-slot lane whose slot is invalid, used by the C6 witness. -/
def laneC6 : thread := { m_tasks_list := [{}] }

/-- Query name abcdefghX (9 characters) for the C7 witness. -/
def qNameX : List Nat := [97, 98, 99, 100, 101, 102, 103, 104, 88]

/-- Query name abcdefghY (9 characters) for the C7 witness. -/
def qNameY : List Nat := [97, 98, 99, 100, 101, 102, 103, 104, 89]

/-- A lane holding one task named abcdefghX, used by the C7 witness. -/
def laneC7 : thread :=
  { m_tasks_list := [task_t.mk' qNameX 10 true] }

/-- Concrete negative-period reachable task used by the C8 witness. -/
def taskC8w : task_t := task_t.mk' [116] (-10) true

/-- Claim C1: when a ready task executes, the spec says a negative-period
task's `last_run` is backdated to `now() - time_left_at_run`.  The code
contradicts this: `run` sets `m_status = running` before evaluating
`ticks_left()`, and `ticks_left()` returns 0 whenever the status is not
`paused`, so the subtraction is always by 0.  At the concrete failing
input `taskC1` polled and run at tick 12: the task is ready with
time-left -12, yet after `run` its `last_run` is 12 (the completion
tick), not `12 - (-12) = 24`; no boundary anchoring happens. -/
theorem C1_no_backdating :
    ((taskC1.is_ready 12).1 = true) ∧
    ((taskC1.is_ready 12).2.m_ticks_left = -12) ∧
    (((taskC1.is_ready 12).2.run 12).m_last_run_tick = 12) ∧
    ((12 : Int) - (taskC1.is_ready 12).2.m_ticks_left = 24) := by
  decide

/-- Claim C2: for a negative-period task of magnitude P (stored status
not the never-stored `delayed` value), `_ticks_left` samples
`phase = now mod P`; on wraparound (`phase < m_prev`) it returns
`-elapsed(last_run)`, otherwise `P - phase`; the phase sample `m_prev`
is updated to the new phase in both cases, and a readiness check stores
the computed time-left and the new phase into the task. -/
theorem C2_wraparound (s : task_t) (now : Nat)
    (hneg : s.m_period_tick < 0) (hst : s.m_status ≠ status_t.delayed) :
    (s._ticks_left now =
      (if now % (-s.m_period_tick).toNat < s.m_prev
       then (-(elapsed now s.m_last_run_tick), now % (-s.m_period_tick).toNat)
       else ((-s.m_period_tick) - ((now % (-s.m_period_tick).toNat : Nat) : Int),
             now % (-s.m_period_tick).toNat))) ∧
    (s.m_status ≠ status_t.invalid → s.m_status ≠ status_t.stopped →
      (s.is_ready now).2.m_prev = now % (-s.m_period_tick).toNat ∧
      (s.is_ready now).2.m_ticks_left = (s._ticks_left now).1) := by
  have h1 : s._ticks_left now =
      (if now % (-s.m_period_tick).toNat < s.m_prev
       then (-(elapsed now s.m_last_run_tick), now % (-s.m_period_tick).toNat)
       else ((-s.m_period_tick) - ((now % (-s.m_period_tick).toNat : Nat) : Int),
             now % (-s.m_period_tick).toNat)) := by
    simp only [task_t._ticks_left, if_pos hneg, if_neg hst]
  refine ⟨h1, fun hinv hstop => ⟨?_, ?_⟩⟩
  · simp only [task_t.is_ready, if_neg hinv, if_neg hstop]
    rw [h1]
    split <;> rfl
  · simp only [task_t.is_ready, if_neg hinv, if_neg hstop]

/-- Witness for C2 at the concrete task `taskC2w` polled at tick 12
(phase 2 wraps below the stored sample 7). -/
theorem C2_witness :
    (taskC2w._ticks_left 12 =
      (if 12 % (-taskC2w.m_period_tick).toNat < taskC2w.m_prev
       then (-(elapsed 12 taskC2w.m_last_run_tick),
             12 % (-taskC2w.m_period_tick).toNat)
       else ((-taskC2w.m_period_tick) -
               ((12 % (-taskC2w.m_period_tick).toNat : Nat) : Int),
             12 % (-taskC2w.m_period_tick).toNat))) ∧
    (taskC2w.m_status ≠ status_t.invalid → taskC2w.m_status ≠ status_t.stopped →
      (taskC2w.is_ready 12).2.m_prev = 12 % (-taskC2w.m_period_tick).toNat ∧
      (taskC2w.is_ready 12).2.m_ticks_left = (taskC2w._ticks_left 12).1) :=
  C2_wraparound taskC2w 12 (by decide) (by decide)

/-- Claim C3 counterexample: the `task_t(name, period, callback)`
constructor in src/scheduler.hpp line 158 sets the status to `running`,
not `paused` as the claim states. -/
theorem C3_counterexample :
    (task_t.mk' [116, 49] 10 true).m_status = status_t.running ∧
    ¬ (task_t.mk' [116, 49] 10 true).m_status = status_t.paused := by
  decide

/-- Claim C3 (amended): constructing a task from (name, period,
callback) yields a task whose status is `running`; since `is_ready`
rejects only `invalid` and `stopped`, the constructed task is still
eligible to run on its first matching deadline (its readiness is exactly
the computed time-left being at most 0). -/
theorem C3_constructed_running (name : List Nat) (period : Int)
    (callback : Bool) (now : Nat) :
    (task_t.mk' name period callback).m_status = status_t.running ∧
    ((task_t.mk' name period callback).is_ready now).1 =
      decide (((task_t.mk' name period callback)._ticks_left now).1 ≤ 0) := by
  exact ⟨rfl, rfl⟩

/-- Claim C4: `is_ready` returns true exactly when the computed
time-left is at most 0 (for either period sign); `stopped` and `invalid`
tasks are never ready; and `start()` forces the status to `paused` with
both owned statistics cleared (run-duration and execution-latency
rolling statistics reset to their unseeded state), after which readiness
again follows the periodic rule. -/
theorem C4_ready_iff (s : task_t) (now : Nat) :
    ((s.m_status = status_t.invalid ∨ s.m_status = status_t.stopped) →
       (s.is_ready now).1 = false) ∧
    (s.m_status ≠ status_t.invalid → s.m_status ≠ status_t.stopped →
       ((s.is_ready now).1 = true ↔ (s._ticks_left now).1 ≤ 0)) ∧
    ((s.start now).m_status = status_t.paused ∧
     (s.start now).m_run_time.m_duration = s.m_run_time.m_duration.reset ∧
     (s.start now).m_exec_time.m_duration = s.m_exec_time.m_duration.reset ∧
     (s.start now).m_run_time.m_duration.m_is_mean_valid = false ∧
     (s.start now).m_exec_time.m_duration.m_is_mean_valid = false) := by
  refine ⟨?_, ?_, rfl, rfl, rfl, rfl, rfl⟩
  · rintro (h | h) <;> simp [task_t.is_ready, h]
  · intro h1 h2
    simp only [task_t.is_ready, if_neg h1, if_neg h2]
    exact decide_eq_true_iff

/-- Witness for C4: a concrete stopped task is not ready, a concrete
paused task's readiness matches its computed time-left, and starting the
stopped task re-arms it with cleared statistics. -/
theorem C4_witness :
    ((taskC4stopped.is_ready 5).1 = false) ∧
    (((taskC4paused.is_ready 5).1 = true) ↔ ((taskC4paused._ticks_left 5).1 ≤ 0)) ∧
    ((taskC4stopped.start 5).m_status = status_t.paused ∧
     (taskC4stopped.start 5).m_run_time.m_duration =
       taskC4stopped.m_run_time.m_duration.reset ∧
     (taskC4stopped.start 5).m_exec_time.m_duration =
       taskC4stopped.m_exec_time.m_duration.reset ∧
     (taskC4stopped.start 5).m_run_time.m_duration.m_is_mean_valid = false ∧
     (taskC4stopped.start 5).m_exec_time.m_duration.m_is_mean_valid = false) :=
  ⟨(C4_ready_iff taskC4stopped 5).1 (Or.inr rfl),
   (C4_ready_iff taskC4paused 5).2.1 (by decide) (by decide),
   (C4_ready_iff taskC4stopped 5).2.2⟩

/-- A readiness check does not change the stored status. -/
theorem is_ready_status (s : task_t) (n : Nat) :
    ((s.is_ready n).2).m_status = s.m_status := by
  unfold task_t.is_ready
  split_ifs <;> rfl

/-- When `run` does not return early, the final stored status is
decided by the callback's boolean result. -/
theorem run_status_of (s : task_t) (n : Nat)
    (h1 : s.m_status ≠ status_t.invalid) (h2 : s.m_status ≠ status_t.stopped) :
    (s.run n).m_status =
      (if s.m_callback then status_t.paused else status_t.invalid) := by
  by_cases hp : 0 ≤ s.m_period_tick <;> cases hc : s.m_callback <;>
    simp [task_t.run, if_neg h1, if_neg h2, hp, hc]

/-- After `run` the stored status is either unchanged (early return) or
one of `paused` / `invalid` (from the callback result). -/
theorem run_status (s : task_t) (n : Nat) :
    (s.run n).m_status = s.m_status ∨ (s.run n).m_status = status_t.paused ∨
    (s.run n).m_status = status_t.invalid := by
  by_cases h1 : s.m_status = status_t.invalid
  · left; unfold task_t.run; rw [if_pos h1]
  by_cases h2 : s.m_status = status_t.stopped
  · left; unfold task_t.run; rw [if_neg h1, if_pos h2]
  rw [run_status_of s n h1 h2]
  cases s.m_callback <;> simp

/-- Claim C8: in every task state reachable through construction and the
public operations, the stored status field never holds `delayed` (it is
only synthesized on read by `status()`), hence for a negative-period
task the `m_status == delayed` branch of `_ticks_left` is unreachable
and the computation always takes the phase-wraparound path. -/
theorem C8_delayed_never_stored (s : task_t) (h : ReachableTask s) (now : Nat) :
    s.m_status ≠ status_t.delayed ∧
    (s.m_period_tick < 0 →
      s._ticks_left now =
        (if now % (-s.m_period_tick).toNat < s.m_prev
         then (-(elapsed now s.m_last_run_tick),
               now % (-s.m_period_tick).toNat)
         else ((-s.m_period_tick) -
                 ((now % (-s.m_period_tick).toNat : Nat) : Int),
               now % (-s.m_period_tick).toNat))) := by
  have hst : s.m_status ≠ status_t.delayed := by
    clear now
    induction h with
    | construct name period callback => simp [task_t.mk']
    | defaultSlot p => simp
    | ready n h ih => rw [is_ready_status]; exact ih
    | run n h ih =>
      rcases run_status _ n with he | he | he <;> rw [he] <;> simp [ih]
    | start n h ih => simp [task_t.start]
    | stop h ih => simp [task_t.stop]
    | invalidate h ih => simp [task_t.invalidate]
    | assign h1 h2 ih1 ih2 => simpa [task_t.assign] using ih2
  refine ⟨hst, fun hneg => ?_⟩
  simp only [task_t._ticks_left, if_pos hneg, if_neg hst]

/-- Witness for C8 at the concrete reachable task `taskC8w` (freshly
constructed with period -10) and clock reading 12. -/
theorem C8_witness :
    taskC8w.m_status ≠ status_t.delayed ∧
    (taskC8w.m_period_tick < 0 →
      taskC8w._ticks_left 12 =
        (if 12 % (-taskC8w.m_period_tick).toNat < taskC8w.m_prev
         then (-(elapsed 12 taskC8w.m_last_run_tick),
               12 % (-taskC8w.m_period_tick).toNat)
         else ((-taskC8w.m_period_tick) -
                 ((12 % (-taskC8w.m_period_tick).toNat : Nat) : Int),
               12 % (-taskC8w.m_period_tick).toNat))) :=
  C8_delayed_never_stored taskC8w
    (ReachableTask.construct [116] (-10) true) 12

/-- Folding addition over a list distributes over the accumulator. -/
theorem foldl_add_shift (l : List Nat) : ∀ a : Nat,
    l.foldl (fun x y => x + y) a = a + l.foldl (fun x y => x + y) 0 := by
  induction l with
  | nil => intro a; simp
  | cons x t ih =>
    intro a
    simp only [List.foldl_cons]
    rw [ih (a + x), ih (0 + x)]
    omega

/-- Ring sum of a cons. -/
theorem sumList_cons (x : Nat) (t : List Nat) :
    sumList (x :: t) = x + sumList t := by
  unfold sumList
  rw [List.foldl_cons, foldl_add_shift]
  omega

/-- Ring sum of a constant ring. -/
theorem sumList_replicate (n v : Nat) :
    sumList (List.replicate n v) = n * v := by
  induction n with
  | zero => simp [sumList]
  | succ k ih =>
    rw [List.replicate_succ, sumList_cons, ih, Nat.succ_mul]
    omega

/-- Folding wrapped additions from a reduced accumulator computes the
wrapped total. -/
theorem sumMod_shift (l : List Nat) : ∀ a : Nat,
    l.foldl (fun x y => (x + y) % UINT64_MOD) (a % UINT64_MOD) =
      (a + sumList l) % UINT64_MOD := by
  induction l with
  | nil => intro a; simp [sumList]
  | cons x t ih =>
    intro a
    simp only [List.foldl_cons]
    rw [Nat.mod_add_mod, ih (a + x), sumList_cons]
    have he : a + x + sumList t = a + (x + sumList t) := by omega
    rw [he]

/-- The uint64_t mean accumulation equals the exact ring sum reduced
modulo 2^64. -/
theorem sumMod_spec (l : List Nat) : sumMod l = sumList l % UINT64_MOD := by
  have h := sumMod_shift l 0
  rw [Nat.zero_mod, Nat.zero_add] at h
  exact h

/-- Overwriting a slot of a constant ring with the same value is the
identity. -/
theorem set_replicate (v : Nat) : ∀ (L i : Nat),
    (List.replicate L v).set i v = List.replicate L v := by
  intro L
  induction L with
  | zero => intro i; rfl
  | succ k ih =>
    intro i
    cases i with
    | zero => simp [List.replicate_succ]
    | succ j => simp [List.replicate_succ, ih j]

/-- `add` folds the new sample into the running minimum. -/
theorem add_m_min (s : min_max_mean_t) (v : Nat) :
    (s.add v).m_min = Nat.min s.m_min v := rfl

/-- `add` folds the new sample into the running maximum. -/
theorem add_m_max (s : min_max_mean_t) (v : Nat) :
    (s.add v).m_max = Nat.max s.m_max v := rfl

/-- Folding a nondecreasing sample list whose head dominates the current
maximum keeps the minimum and tracks the last sample as maximum. -/
theorem foldl_add_min_max (l : List Nat) :
    ∀ s : min_max_mean_t, List.Chain' (fun a b => a ≤ b) (s.m_max :: l) →
      s.m_min ≤ s.m_max →
      ((l.foldl min_max_mean_t.add s).m_min = s.m_min ∧
       (l.foldl min_max_mean_t.add s).m_max = l.getLastD s.m_max) := by
  induction l with
  | nil => intro s _ _; exact ⟨rfl, rfl⟩
  | cons w t ih =>
    intro s hchain hle
    have h1 : s.m_max ≤ w := (List.chain'_cons.mp hchain).1
    have h2 : List.Chain' (fun a b => a ≤ b) (w :: t) :=
      (List.chain'_cons.mp hchain).2
    have hmin : (s.add w).m_min = s.m_min := by
      rw [add_m_min]; exact Nat.min_eq_left (le_trans hle h1)
    have hmax : (s.add w).m_max = w := by
      rw [add_m_max]; exact Nat.max_eq_right h1
    have h3 := ih (s.add w) (by rw [hmax]; exact h2)
      (by rw [hmin, hmax]; exact le_trans hle h1)
    rw [List.foldl_cons, List.getLastD_cons]
    refine ⟨?_, ?_⟩
    · rw [h3.1, hmin]
    · rw [h3.2, hmax]

/-- Claim C10 counterexample: the claim as stated fails at the
representable sample v = 2^63.  After `reset()`, the first `add(2^63)`
fills the 32-slot ring with 2^63, but the uint64_t mean accumulation
wraps (32 times 2^63 is 0 modulo 2^64), so the program's mean is 0, not
2^63 — neither "mean = v" nor "mean equals the arithmetic mean of the
ring contents" holds there. -/
theorem C10_counterexample :
    ((({} : min_max_mean_t).reset).add (2 ^ 63)).m_mean = 0 ∧
    (2 ^ 63 : Nat) ≠ 0 := by
  decide

/-- Claim C10 (amended): after `reset()`, the first `add(v)` fills the
entire ring with `v`; provided the ring sum does not overflow uint64_t
(N times v below 2^64), min = max = mean = v.  After every `add` the
mean equals the uint64_t-wrapped ring sum divided by N — hence the exact
integer arithmetic mean of the ring contents whenever that sum fits in
uint64_t.  Feeding a nondecreasing sequence from a reset state keeps the
minimum equal to the first value added and the maximum equal to the
latest value added (min/max are exact for all representable
samples). -/
theorem C10_rolling_statistic :
    (∀ (s0 : min_max_mean_t) (v : Nat), 0 < s0.m_values.length →
       s0.m_values.length * v < UINT64_MOD →
       ((((s0.reset).add v).m_min = v) ∧ (((s0.reset).add v).m_max = v) ∧
        (((s0.reset).add v).m_mean = v))) ∧
    (∀ (s : min_max_mean_t) (v : Nat),
       ((s.add v).m_mean =
          sumList (s.add v).m_values % UINT64_MOD /
            (s.add v).m_values.length) ∧
       (sumList (s.add v).m_values < UINT64_MOD →
          (s.add v).m_mean =
            sumList (s.add v).m_values / (s.add v).m_values.length)) ∧
    (∀ (s0 : min_max_mean_t) (v : Nat) (l : List Nat), v ≤ UINT64_MAX →
       List.Chain' (fun a b => a ≤ b) (v :: l) →
       ((((v :: l).foldl min_max_mean_t.add (s0.reset)).m_min = v) ∧
        (((v :: l).foldl min_max_mean_t.add (s0.reset)).m_max =
          l.getLastD v))) := by
  refine ⟨?_, ?_, ?_⟩
  · intro s0 v hlen hwrap
    have hv : v ≤ UINT64_MAX := by
      have h1 : v ≤ s0.m_values.length * v :=
        Nat.le_mul_of_pos_left v hlen
      have h2 : v < UINT64_MOD := lt_of_le_of_lt h1 hwrap
      have h3 : UINT64_MOD = UINT64_MAX + 1 := by decide
      omega
    refine ⟨?_, ?_, ?_⟩
    · rw [add_m_min]; exact Nat.min_eq_right hv
    · rw [add_m_max]; exact Nat.max_eq_right (Nat.zero_le v)
    · simp only [min_max_mean_t.add, min_max_mean_t.reset,
        List.length_replicate, Bool.false_eq_true, if_false,
        set_replicate]
      rw [sumMod_spec, sumList_replicate, Nat.mod_eq_of_lt hwrap]
      exact Nat.mul_div_cancel_left v hlen
  · intro s v
    have h1 : (s.add v).m_mean =
        sumList (s.add v).m_values % UINT64_MOD /
          (s.add v).m_values.length := by
      simp only [min_max_mean_t.add]
      rw [sumMod_spec, List.length_set]
    exact ⟨h1, fun hs => by rw [h1, Nat.mod_eq_of_lt hs]⟩
  · intro s0 v l hv hchain
    have hmin1 : (((s0.reset)).add v).m_min = v := by
      rw [add_m_min]; exact Nat.min_eq_right hv
    have hmax1 : (((s0.reset)).add v).m_max = v := by
      rw [add_m_max]; exact Nat.max_eq_right (Nat.zero_le v)
    have h := foldl_add_min_max l ((s0.reset).add v)
      (by rw [hmax1]; exact hchain) (by rw [hmin1, hmax1])
    rw [List.foldl_cons]
    exact ⟨by rw [h.1, hmin1], by rw [h.2, hmax1]⟩

/-- Witness for C10: from a fresh (32-slot) statistic, one `add 5`
(32 times 5 is far below 2^64) yields min = max = mean = 5, and folding
the nondecreasing samples 5, 7, 9 keeps min 5 and tracks 9 as
maximum. -/
theorem C10_witness :
    (((({} : min_max_mean_t).reset).add 5).m_min = 5 ∧
     ((({} : min_max_mean_t).reset).add 5).m_max = 5 ∧
     ((({} : min_max_mean_t).reset).add 5).m_mean = 5) ∧
    (([5, 7, 9].foldl min_max_mean_t.add (({} : min_max_mean_t).reset)).m_min = 5 ∧
     ([5, 7, 9].foldl min_max_mean_t.add (({} : min_max_mean_t).reset)).m_max =
       [7, 9].getLastD 5) :=
  ⟨C10_rolling_statistic.1 {} 5 (by decide) (by decide),
   C10_rolling_statistic.2.2 {} 5 [7, 9] (by decide)
     (by norm_num [List.chain'_cons])⟩

/-- `addAux` finds exactly the first invalid slot: if every slot before
index `i` is populated and slot `i` is invalid, the new task is assigned
into slot `i`. -/
theorem addAux_first (tnew : task_t) :
    ∀ (l : List task_t) (i : Nat), i < l.length →
      (∀ j, j < i → (l.getD j {}).m_status ≠ status_t.invalid) →
      (l.getD i {}).m_status = status_t.invalid →
      addAux tnew l = some (l.set i ((l.getD i {}).assign tnew)) := by
  intro l
  induction l with
  | nil => intro i hi; simp at hi
  | cons t ts ih =>
    intro i hi hbefore hinv
    cases i with
    | zero =>
      simp only [List.getD_cons_zero] at hinv
      simp [addAux, hinv]
    | succ n =>
      have ht : t.m_status ≠ status_t.invalid := by
        have := hbefore 0 (Nat.succ_pos n)
        simpa using this
      simp only [List.getD_cons_succ] at hinv
      simp only [addAux, if_neg ht]
      rw [ih n (by simpa using hi)
        (fun j hj => by simpa using hbefore (j + 1) (by omega)) hinv]
      rfl

/-- When no slot matches the filter, `ctrlAux` reports no match. -/
theorem ctrlAux_none (f : task_t → task_t) (q : List Nat) :
    ∀ l : List task_t, (∀ t ∈ l, taskMatches t q = false) →
      ctrlAux f q l = none := by
  intro l
  induction l with
  | nil => intro _; rfl
  | cons t ts ih =>
    intro h
    have ht := h t (List.mem_cons_self t ts)
    simp only [ctrlAux, ht, Bool.false_eq_true, if_false]
    rw [ih (fun x hx => h x (List.mem_cons_of_mem t hx))]
    rfl

/-- `ctrlAux` applies `f` to exactly the first matching slot. -/
theorem ctrlAux_first (f : task_t → task_t) (q : List Nat) :
    ∀ (l : List task_t) (i : Nat), i < l.length →
      (∀ j, j < i → taskMatches (l.getD j {}) q = false) →
      taskMatches (l.getD i {}) q = true →
      ctrlAux f q l = some (l.set i (f (l.getD i {}))) := by
  intro l
  induction l with
  | nil => intro i hi; simp at hi
  | cons t ts ih =>
    intro i hi hbefore hmatch
    cases i with
    | zero =>
      simp only [List.getD_cons_zero] at hmatch
      simp [ctrlAux, hmatch]
    | succ n =>
      have ht : taskMatches t q = false := by
        have := hbefore 0 (Nat.succ_pos n)
        simpa using this
      simp only [List.getD_cons_succ] at hmatch
      simp only [ctrlAux, ht, Bool.false_eq_true, if_false]
      rw [ih n (by simpa using hi)
        (fun j hj => by simpa using hbefore (j + 1) (by omega)) hmatch]
      rfl

/-- A query string is read by `strncmpEq8` only through its first eight
characters. -/
theorem strncmpEqAux_congr (a b1 b2 : Nat → Nat) :
    ∀ (fuel i : Nat), (∀ j, i ≤ j → j < i + fuel → b1 j = b2 j) →
      strncmpEqAux a b1 fuel i = strncmpEqAux a b2 fuel i := by
  intro fuel
  induction fuel with
  | zero => intro i _; rfl
  | succ f ih =>
    intro i h
    have hi : b1 i = b2 i := h i (le_refl i) (by omega)
    simp only [strncmpEqAux, hi]
    split_ifs with h1 h2
    · rfl
    · rfl
    · exact ih (i + 1) (fun j hj1 hj2 => h j (by omega) (by omega))

/-- Two queries agreeing on their first eight characters are compared
identically against every stored name. -/
theorem strncmpEq8_congr (a q1 q2 : List Nat)
    (h : ∀ i, i < 8 → charAt q1 i = charAt q2 i) :
    strncmpEq8 a q1 = strncmpEq8 a q2 :=
  strncmpEqAux_congr (charAt a) (charAt q1) (charAt q2) 8 0
    (fun j _ hj2 => h j (by omega))

/-- The slot filter cannot distinguish queries agreeing on their first
eight characters. -/
theorem taskMatches_congr (q1 q2 : List Nat)
    (h : ∀ i, i < 8 → charAt q1 i = charAt q2 i) (t : task_t) :
    taskMatches t q1 = taskMatches t q2 := by
  unfold taskMatches
  rw [strncmpEq8_congr t.m_name q1 q2 h]

/-- `ctrlAux` depends on the query only through the slot filter. -/
theorem ctrlAux_congr (f : task_t → task_t) (q1 q2 : List Nat)
    (h : ∀ t : task_t, taskMatches t q1 = taskMatches t q2) :
    ∀ l : List task_t, ctrlAux f q1 l = ctrlAux f q2 l := by
  intro l
  induction l with
  | nil => rfl
  | cons t ts ih => simp only [ctrlAux, h t, ih]

/-- Claim C6: executing a ready (hence neither invalid nor stopped) task
sets the next status from the callback's boolean result — true rearms to
`paused`, false invalidates the slot (one-shot completion) — and an
invalid slot is immediately reusable: `add()` copies a new task into the
first invalid slot and returns true. -/
theorem C6_callback_result (s : task_t) (now : Nat)
    (h1 : s.m_status ≠ status_t.invalid) (h2 : s.m_status ≠ status_t.stopped) :
    ((s.m_callback = true → (s.run now).m_status = status_t.paused) ∧
     (s.m_callback = false → (s.run now).m_status = status_t.invalid)) ∧
    (∀ (lane : thread) (tnew : task_t) (i : Nat),
       i < lane.m_tasks_list.length →
       (∀ j, j < i →
          (lane.m_tasks_list.getD j {}).m_status ≠ status_t.invalid) →
       (lane.m_tasks_list.getD i {}).m_status = status_t.invalid →
       lane.add tnew =
         (true, { lane with
           m_tasks_list := lane.m_tasks_list.set i
             ((lane.m_tasks_list.getD i {}).assign tnew) })) := by
  constructor
  · constructor
    · intro hc; rw [run_status_of s now h1 h2, hc]; rfl
    · intro hc; rw [run_status_of s now h1 h2, hc]; rfl
  · intro lane tnew i hi hbefore hinv
    unfold thread.add
    rw [addAux_first tnew lane.m_tasks_list i hi hbefore hinv]

/-- Witness for C6: a concrete ready task with a true-returning callback
rearms to paused, and adding into a one-slot lane whose slot is invalid
copies the new task into slot 0 and returns true. -/
theorem C6_witness :
    ((taskC6.run 4).m_status = status_t.paused) ∧
    (laneC6.add taskC6new =
      (true, { laneC6 with
        m_tasks_list := laneC6.m_tasks_list.set 0
          ((laneC6.m_tasks_list.getD 0 {}).assign taskC6new) })) :=
  ⟨(C6_callback_result taskC6 4 (by decide) (by decide)).1.1 rfl,
   (C6_callback_result taskC6 4 (by decide) (by decide)).2 laneC6 taskC6new 0
     (by decide) (fun j hj => absurd hj (Nat.not_lt_zero j)) (by decide)⟩

/-- Claim C7: the name-addressed lane operations pkill/start/stop
compare at most an eight-character prefix (queries agreeing on their
first eight characters are indistinguishable), apply the operation to
the first matching non-invalid slot in slot order returning true, and
return false leaving the lane unchanged when no slot matches. -/
theorem C7_name_addressing (now : Nat) :
    (∀ (q1 q2 : List Nat), (∀ i, i < 8 → charAt q1 i = charAt q2 i) →
       ∀ lane : thread,
         (lane.pkill q1 = lane.pkill q2) ∧
         (lane.start now q1 = lane.start now q2) ∧
         (lane.stop q1 = lane.stop q2)) ∧
    (∀ (q : List Nat) (lane : thread) (i : Nat),
       i < lane.m_tasks_list.length →
       (∀ j, j < i → taskMatches (lane.m_tasks_list.getD j {}) q = false) →
       taskMatches (lane.m_tasks_list.getD i {}) q = true →
       (lane.pkill q = (true, { lane with
          m_tasks_list := lane.m_tasks_list.set i
            ((lane.m_tasks_list.getD i {}).invalidate) })) ∧
       (lane.start now q = (true, { lane with
          m_tasks_list := lane.m_tasks_list.set i
            ((lane.m_tasks_list.getD i {}).start now) })) ∧
       (lane.stop q = (true, { lane with
          m_tasks_list := lane.m_tasks_list.set i
            ((lane.m_tasks_list.getD i {}).stop) }))) ∧
    (∀ (q : List Nat) (lane : thread),
       (∀ t ∈ lane.m_tasks_list, taskMatches t q = false) →
       (lane.pkill q = (false, lane)) ∧ (lane.start now q = (false, lane)) ∧
       (lane.stop q = (false, lane))) := by
  refine ⟨?_, ?_, ?_⟩
  · intro q1 q2 h lane
    have hm := taskMatches_congr q1 q2 h
    refine ⟨?_, ?_, ?_⟩
    · unfold thread.pkill
      rw [ctrlAux_congr task_t.invalidate q1 q2 hm lane.m_tasks_list]
    · unfold thread.start
      rw [ctrlAux_congr (fun t => t.start now) q1 q2 hm lane.m_tasks_list]
    · unfold thread.stop
      rw [ctrlAux_congr task_t.stop q1 q2 hm lane.m_tasks_list]
  · intro q lane i hi hbefore hmatch
    refine ⟨?_, ?_, ?_⟩
    · unfold thread.pkill
      rw [ctrlAux_first task_t.invalidate q lane.m_tasks_list i hi hbefore
        hmatch]
    · unfold thread.start
      rw [ctrlAux_first (fun t => t.start now) q lane.m_tasks_list i hi
        hbefore hmatch]
    · unfold thread.stop
      rw [ctrlAux_first task_t.stop q lane.m_tasks_list i hi hbefore hmatch]
  · intro q lane h
    refine ⟨?_, ?_, ?_⟩
    · unfold thread.pkill
      rw [ctrlAux_none task_t.invalidate q lane.m_tasks_list h]
    · unfold thread.start
      rw [ctrlAux_none (fun t => t.start now) q lane.m_tasks_list h]
    · unfold thread.stop
      rw [ctrlAux_none task_t.stop q lane.m_tasks_list h]

/-- Witness for C7: the nine-character queries abcdefghX and abcdefghY
act identically on a concrete lane, and a non-matching query returns
false leaving the lane unchanged. -/
theorem C7_witness :
    ((laneC7.pkill qNameX = laneC7.pkill qNameY) ∧
     (laneC7.start 3 qNameX = laneC7.start 3 qNameY) ∧
     (laneC7.stop qNameX = laneC7.stop qNameY)) ∧
    ((laneC7.pkill [122] = (false, laneC7)) ∧
     (laneC7.start 3 [122] = (false, laneC7)) ∧
     (laneC7.stop [122] = (false, laneC7))) :=
  ⟨(C7_name_addressing 3).1 qNameX qNameY (by decide) laneC7,
   (C7_name_addressing 3).2.2 [122] laneC7 (by decide)⟩

/-- Broadcasting over an all-null registry finds nothing and changes
nothing. -/
theorem broadcastFind_all_none (g : thread → Bool × thread) :
    ∀ l : List (Option thread), (∀ o ∈ l, o = none) →
      broadcastFind g l = (false, l) := by
  intro l
  induction l with
  | nil => intro _; rfl
  | cons o ts ih =>
    intro h
    have ho := h o (List.mem_cons_self o ts)
    subst ho
    simp only [broadcastFind]
    rw [ih (fun x hx => h x (List.mem_cons_of_mem none hx))]

/-- Mapping the per-slot statistics reset over an all-null registry is
the identity. -/
theorem map_reset_all_none :
    ∀ l : List (Option thread), (∀ o ∈ l, o = none) →
      l.map (fun o => o.map thread.reset_stats) = l := by
  intro l
  induction l with
  | nil => intro _; rfl
  | cons o ts ih =>
    intro h
    have ho := h o (List.mem_cons_self o ts)
    subst ho
    simp only [List.map_cons]
    rw [ih (fun x hx => h x (List.mem_cons_of_mem none hx))]
    rfl

/-- Claim C9: scheduler registry slots are null until a lane is
registered (the fresh registry is all null); the broadcast operations
pkill/start/stop/reset_stats skip null slots (on an all-null registry
they report no match and change nothing, dereferencing nothing); but
`run(laneIndex)` and `add(task, laneIndex)` with an in-range index
dereference the slot with no null check, so on an unregistered in-range
slot they hit a null pointer (modelled as `none`, undefined behaviour)
rather than acting as a no-op. -/
theorem C9_null_registry (s : scheduler_t) (i now : Nat) (t : task_t)
    (q : List Nat) (hi : i < s.m_threads.length)
    (hnull : s.m_threads.getD i none = none) :
    (s.run now i = none) ∧ (s.addTask t i = none) ∧
    ((∀ o ∈ s.m_threads, o = none) →
       (s.pkill q = (false, s)) ∧ (s.start now q = (false, s)) ∧
       (s.stop q = (false, s)) ∧ (s.reset_stats = s)) ∧
    (∀ j, j < 8 → scheduler_t.init.m_threads.getD j none = none) := by
  refine ⟨?_, ?_, ?_, by decide⟩
  · simp only [scheduler_t.run, if_neg (Nat.not_le.mpr hi), hnull]
  · simp only [scheduler_t.addTask, if_neg (Nat.not_le.mpr hi), hnull]
  · intro hall
    refine ⟨?_, ?_, ?_, ?_⟩
    · unfold scheduler_t.pkill
      rw [broadcastFind_all_none _ s.m_threads hall]
    · unfold scheduler_t.start
      rw [broadcastFind_all_none _ s.m_threads hall]
    · unfold scheduler_t.stop
      rw [broadcastFind_all_none _ s.m_threads hall]
    · unfold scheduler_t.reset_stats
      rw [map_reset_all_none s.m_threads hall]

/-- Witness for C9 at the freshly constructed registry and in-range
index 0. -/
theorem C9_witness :
    (scheduler_t.init.run 5 0 = none) ∧
    (scheduler_t.init.addTask {} 0 = none) ∧
    ((∀ o ∈ scheduler_t.init.m_threads, o = none) →
       (scheduler_t.init.pkill [] = (false, scheduler_t.init)) ∧
       (scheduler_t.init.start 5 [] = (false, scheduler_t.init)) ∧
       (scheduler_t.init.stop [] = (false, scheduler_t.init)) ∧
       (scheduler_t.init.reset_stats = scheduler_t.init)) ∧
    (∀ j, j < 8 → scheduler_t.init.m_threads.getD j none = none) :=
  C9_null_registry scheduler_t.init 0 5 {} [] (by decide) (by decide)

/-- Reading a slot other than the written one through `getD` is
unaffected by `set`. -/
theorem getD_set_ne {α : Type} (l : List α) (i j : Nat) (a d : α)
    (h : i ≠ j) : (l.set i a).getD j d = l.getD j d := by
  simp [List.getD_eq_getElem?_getD, List.getElem?_set_ne h]

/-- An always-ready task's computed time-left is nonpositive and leaves
the phase sample alone (its period is 0, the positive branch). -/
theorem AR_ticks_left (t : task_t) (now : Nat) (h : AlwaysReady now t) :
    (t._ticks_left now).1 ≤ 0 ∧ (t._ticks_left now).2 = t.m_prev := by
  obtain ⟨h1, h2, h3, h4, h5⟩ := h
  have he : t._ticks_left now =
      (t.m_period_tick - elapsed now t.m_last_run_tick, t.m_prev) := by
    unfold task_t._ticks_left
    rw [if_neg (by rw [h3]; exact lt_irrefl 0)]
  rw [he]
  refine ⟨?_, rfl⟩
  rw [h3]
  unfold elapsed
  omega

/-- A readiness check on an always-ready task reports true and preserves
the always-ready invariant. -/
theorem AR_is_ready (now : Nat) (t : task_t) (h : AlwaysReady now t) :
    (t.is_ready now).1 = true ∧ AlwaysReady now (t.is_ready now).2 := by
  obtain ⟨h1, h2, h3, h4, h5⟩ := h
  have htl := AR_ticks_left t now ⟨h1, h2, h3, h4, h5⟩
  unfold task_t.is_ready
  rw [if_neg h1, if_neg h2]
  exact ⟨decide_eq_true htl.1, ⟨h1, h2, h3, h4, h5⟩⟩

/-- Executing `run` under the always-ready hypotheses rearms to
`paused`, stamps `last_run` with the current tick, and keeps period and
callback. -/
theorem run_fields_pos (s : task_t) (n : Nat)
    (h1 : s.m_status ≠ status_t.invalid) (h2 : s.m_status ≠ status_t.stopped)
    (hp : 0 ≤ s.m_period_tick) (hc : s.m_callback = true) :
    (s.run n).m_status = status_t.paused ∧
    (s.run n).m_period_tick = s.m_period_tick ∧
    (s.run n).m_last_run_tick = n ∧
    (s.run n).m_callback = s.m_callback := by
  simp [task_t.run, if_neg h1, if_neg h2, hp, hc]

/-- Running an always-ready task keeps it always ready (the callback
returns true, the period stays 0, and the new last-run baseline is the
current tick). -/
theorem AR_run (now : Nat) (t : task_t) (h : AlwaysReady now t) :
    AlwaysReady now (t.run now) := by
  obtain ⟨h1, h2, h3, h4, h5⟩ := h
  have hf := run_fields_pos t now h1 h2 (by rw [h3]) h5
  refine ⟨?_, ?_, ?_, ?_, ?_⟩
  · rw [hf.1]; exact fun hh => by cases hh
  · rw [hf.1]; exact fun hh => by cases hh
  · rw [hf.2.1]; exact h3
  · rw [hf.2.2.1]
  · rw [hf.2.2.2]; exact h5

/-- A lane containing some populated slot is not empty. -/
theorem size_ne_zero_of_valid (s : thread) (i : Nat)
    (hi : i < s.m_tasks_list.length)
    (hv : (s.m_tasks_list.getD i {}).m_status ≠ status_t.invalid) :
    s.size ≠ 0 := by
  unfold thread.size
  intro h0
  rw [List.countP_eq_zero] at h0
  have hmem : s.m_tasks_list.getD i {} ∈ s.m_tasks_list := by
    rw [List.getD_eq_getElem _ _ hi]
    exact List.getElem_mem hi
  exact (h0 _ hmem) (decide_eq_true hv)

/-- The empty-slot scan stops immediately on a populated slot. -/
theorem findValid_at_valid (tasks : List task_t) (fuel idx : Nat)
    (hv : (tasks.getD idx {}).m_status ≠ status_t.invalid) (hf : fuel ≠ 0) :
    findValid tasks fuel idx = idx := by
  cases fuel with
  | zero => exact absurd rfl hf
  | succ f =>
    unfold findValid
    rw [if_pos hv]

/-- One `run()` call on a populated lane executes exactly the slot under
the cursor: the characterizing equation of the non-empty branch. -/
theorem run_nonempty (now : Nat) (s : thread) (h : s.size ≠ 0) :
    s.run now =
      ((if ((s.m_tasks_list.getD (scanIdx s) {}).is_ready now).1
        then some (scanIdx s) else none),
       { m_tasks_list := s.m_tasks_list.set (scanIdx s)
           (if ((s.m_tasks_list.getD (scanIdx s) {}).is_ready now).1
            then ((s.m_tasks_list.getD (scanIdx s) {}).is_ready now).2.run now
            else ((s.m_tasks_list.getD (scanIdx s) {}).is_ready now).2)
         m_watch := (s.m_watch.start now).stop now
         m_index := (scanIdx s + 1) % s.m_tasks_list.length }) := by
  unfold thread.run scanIdx
  rw [if_neg h]

/-- Under the always-ready invariant with an in-range cursor, one
`run()` executes the cursor slot, advances the cursor by one (mod N),
preserves the capacity, and preserves the invariant. -/
theorem AR_lane_step (now : Nat) (s : thread)
    (hidx : s.m_index < s.m_tasks_list.length)
    (hAR : ∀ t ∈ s.m_tasks_list, AlwaysReady now t) :
    (s.run now).1 = some s.m_index ∧
    (s.run now).2.m_index = (s.m_index + 1) % s.m_tasks_list.length ∧
    (s.run now).2.m_tasks_list.length = s.m_tasks_list.length ∧
    (∀ t ∈ (s.run now).2.m_tasks_list, AlwaysReady now t) := by
  have hmem : s.m_tasks_list.getD s.m_index {} ∈ s.m_tasks_list := by
    rw [List.getD_eq_getElem _ _ hidx]
    exact List.getElem_mem hidx
  have hARt := hAR _ hmem
  have hvalid : (s.m_tasks_list.getD s.m_index {}).m_status ≠
      status_t.invalid := hARt.1
  have hsz := size_ne_zero_of_valid s s.m_index hidx hvalid
  have hfind : scanIdx s = s.m_index := by
    unfold scanIdx
    exact findValid_at_valid _ _ _ hvalid (by omega)
  have hready := AR_is_ready now _ hARt
  have hARrun := AR_run now _ hready.2
  rw [run_nonempty now s hsz, hfind, hready.1]
  refine ⟨rfl, rfl, List.length_set _ _ _, ?_⟩
  intro t ht
  simp only [if_true] at ht
  rcases List.mem_or_eq_of_mem_set ht with hmem2 | heq
  · exact hAR t hmem2
  · rw [heq]; exact hARrun

/-- Under the always-ready invariant, `k` consecutive `run()` calls
execute the cursor slot, then the next, and so on, wrapping modulo the
capacity. -/
theorem AR_lane_iterate (now : Nat) :
    ∀ (k : Nat) (s : thread),
      s.m_index < s.m_tasks_list.length →
      (∀ t ∈ s.m_tasks_list, AlwaysReady now t) →
      (thread.iterateRun now k s).1 =
        (List.range k).map
          (fun j => some ((s.m_index + j) % s.m_tasks_list.length)) := by
  intro k
  induction k with
  | zero => intro s _ _; rfl
  | succ n ih =>
    intro s hidx hAR
    obtain ⟨h1, h2, h3, h4⟩ := AR_lane_step now s hidx hAR
    have hlen : 0 < s.m_tasks_list.length := Nat.pos_of_ne_zero (by omega)
    have hidx2 : (s.run now).2.m_index < (s.run now).2.m_tasks_list.length := by
      rw [h2, h3]
      exact Nat.mod_lt _ hlen
    have hrec := ih (s.run now).2 hidx2 h4
    show ((s.run now).1 ::
        (thread.iterateRun now n (s.run now).2).1) = _
    rw [h1, hrec, h2, h3, List.range_succ_eq_map, List.map_cons,
      List.map_map]
    have hhead : (s.m_index + 0) % s.m_tasks_list.length = s.m_index := by
      rw [Nat.add_zero]
      exact Nat.mod_eq_of_lt hidx
    rw [hhead]
    refine congrArg (fun l => some s.m_index :: l) ?_
    refine List.map_congr_left ?_
    intro a _
    show some (((s.m_index + 1) % s.m_tasks_list.length + a) %
        s.m_tasks_list.length) = some ((s.m_index + Nat.succ a) %
        s.m_tasks_list.length)
    rw [Nat.mod_add_mod]
    refine congrArg _ (congrArg (fun x => x % s.m_tasks_list.length) ?_)
    omega

/-- Distinct offsets below N land on distinct slots of the round-robin
cycle. -/
theorem rr_index_inj (N i0 : Nat) :
    ∀ a ∈ List.range N, ∀ b ∈ List.range N,
      some ((i0 + a) % N) = some ((i0 + b) % N) → a = b := by
  intro a ha b hb h
  rw [List.mem_range] at ha hb
  rw [Option.some.injEq] at h
  have h2 := Nat.ModEq.add_left_cancel' i0
    (show (i0 + a) ≡ (i0 + b) [MOD N] from h)
  unfold Nat.ModEq at h2
  rw [Nat.mod_eq_of_lt ha, Nat.mod_eq_of_lt hb] at h2
  exact h2

/-- Every slot below N is hit by some offset below N of the round-robin
cycle. -/
theorem rr_index_surj (N i0 : Nat) (hN : 0 < N) (hi0 : i0 ≤ N) :
    ∀ i, i < N → ∃ k, k < N ∧ (i0 + k) % N = i := by
  intro i hi
  refine ⟨(i + N - i0) % N, Nat.mod_lt _ hN, ?_⟩
  rw [Nat.add_mod_mod, Nat.add_sub_cancel' (by omega : i0 ≤ i + N),
    Nat.add_mod_right]
  exact Nat.mod_eq_of_lt hi

/-- Claim C5: on an empty lane `run()` is a no-op; on a non-empty lane
it advances the scan past invalid slots to the cursor slot `scanIdx`,
executes that slot only if it is ready, leaves every other slot
untouched, and advances the cursor by one regardless — so at most one
task executes per call; and on a lane of N populated, always-ready tasks
with an in-range cursor, N consecutive `run()` calls execute the slots
`m_index, m_index+1, ..., (mod N)`: each of the N tasks exactly once,
never repeating one before the others have had their opportunity. -/
theorem C5_lane_round_robin (now : Nat) :
    (∀ s : thread, s.size = 0 → s.run now = (none, s)) ∧
    (∀ s : thread, s.size ≠ 0 →
       ((s.run now).1 =
          (if ((s.m_tasks_list.getD (scanIdx s) {}).is_ready now).1
           then some (scanIdx s) else none)) ∧
       ((s.run now).2.m_index = (scanIdx s + 1) % s.m_tasks_list.length) ∧
       (∀ j, j ≠ scanIdx s →
          (s.run now).2.m_tasks_list.getD j {} =
            s.m_tasks_list.getD j {})) ∧
    (∀ (s : thread) (N : Nat), s.m_tasks_list.length = N →
       s.m_index < N → (∀ t ∈ s.m_tasks_list, AlwaysReady now t) →
       ((thread.iterateRun now N s).1 =
          (List.range N).map (fun j => some ((s.m_index + j) % N))) ∧
       ((thread.iterateRun now N s).1.Nodup) ∧
       (∀ i, i < N → some i ∈ (thread.iterateRun now N s).1)) := by
  refine ⟨?_, ?_, ?_⟩
  · intro s h
    unfold thread.run
    rw [if_pos h]
  · intro s h
    rw [run_nonempty now s h]
    refine ⟨rfl, rfl, ?_⟩
    intro j hj
    exact getD_set_ne _ _ _ _ _ (fun he => hj he.symm)
  · intro s N hN hidx hAR
    have hmap := AR_lane_iterate now N s (by omega) hAR
    rw [hN] at hmap
    have hNpos : 0 < N := by omega
    refine ⟨hmap, ?_, ?_⟩
    · rw [hmap]
      exact List.Nodup.map_on (rr_index_inj N s.m_index)
        (List.nodup_range N)
    · intro i hi
      rw [hmap]
      obtain ⟨k, hk, hke⟩ := rr_index_surj N s.m_index hNpos (by omega) i hi
      rw [List.mem_map]
      exact ⟨k, List.mem_range.mpr hk, by rw [hke]⟩

/-- Witness for C5: a two-slot lane of immediately ready tasks executes
slot 0 then slot 1 across two consecutive calls, each exactly once. -/
theorem C5_witness :
    ((thread.iterateRun 10 2 laneC5).1 =
       (List.range 2).map (fun j => some ((laneC5.m_index + j) % 2))) ∧
    ((thread.iterateRun 10 2 laneC5).1.Nodup) ∧
    (∀ i, i < 2 → some i ∈ (thread.iterateRun 10 2 laneC5).1) :=
  (C5_lane_round_robin 10).2.2 laneC5 2 (by decide) (by decide) (by decide)
